import Mathlib

/-!
# Verification of the token-ledger and marketplace consistency layer

Shallow embedding of the balance-mutation operations (`mintToken`,
`burnToken`, `transferToken` from `src/backend/token/token.ts`) and the
marketplace operations (`createListing`, `buyNFT`, `cancelListing` from the
NFT service) of the indoblockforge platform, together with proofs and
refutations of the specified consistency properties.

Modelling conventions:
* SQL tables are lists of row structures; `queryRow` is `List.find?` (first
  match), `UPDATE ... WHERE` is a `List.map` that rewrites matching rows,
  `INSERT` appends, and `INSERT ... ON CONFLICT (k) DO UPDATE` first looks
  for a row with the conflicting key and updates it, else appends.
* `DECIMAL(78,0)` amount/price/balance values are modelled as `Int`: the
  services pass amounts through JavaScript `BigInt` (burn/transfer) or
  directly to the DECIMAL column (mint), so the value space is the signed
  arbitrary-precision integers.  An amount field models a *non-empty,
  parseable* amount string; the JavaScript falsy guard (`!req.amount`)
  rejects only the empty string, which has no representative here, and a
  non-parseable string raises before any write, leaving the state unchanged
  exactly like any other error path.
* Timestamps (`expires_at`, `NOW()`) are modelled as `Int` instants passed
  explicitly; the random transaction hash is modelled as an explicitly
  passed string, since it carries no structure.
* Columns never read or written by the modelled operations (token symbol,
  wallet custody fields, NFT image urls, `created_at`, `updated_at`, ...)
  are omitted from the row structures.
* Each operation returns `Except Err σ`: the code throws before issuing any
  mutating statement on every error path (the only multi-statement writes,
  in `transferToken` and `buyNFT`, sit inside a BEGIN/COMMIT block whose
  interior cannot fail once the preceding checks passed), so an error
  leaves the stored state unchanged and only the success path returns a new
  state.
-/

/-- Error kinds, one per distinct `throw new Error(...)` site of the two
services, plus the three kinds that §4.2/§4.3 of the specification name but
that no code path produces (`invalidAmount`, `walletNotFound`,
`duplicateActiveListing`); those are included so that their absence from
the reachable behaviour is expressible. -/
inductive Err where
  /-- "Missing required ... parameters" / "... are required" -/
  | missingParams : Err
  /-- "Token not found" -/
  | tokenNotFound : Err
  /-- "Token is not mintable" -/
  | notMintable : Err
  /-- "Token is not burnable" -/
  | notBurnable : Err
  /-- "Insufficient balance to burn" / "Insufficient balance to transfer" -/
  | insufficientBalance : Err
  /-- "NFT not found" -/
  | nftNotFound : Err
  /-- "You don't own this NFT" -/
  | notOwner : Err
  /-- "Listing not found or no longer active" -/
  | listingNotFoundOrInactive : Err
  /-- "Listing has expired" -/
  | listingExpired : Err
  /-- "Listing not found or you're not the seller" -/
  | listingNotFoundOrNotSeller : Err
  /-- named by the spec; produced by no code path -/
  | invalidAmount : Err
  /-- named by the spec; produced by no code path -/
  | walletNotFound : Err
  /-- named by the spec; produced by no code path -/
  | duplicateActiveListing : Err
deriving DecidableEq, Repr

deriving instance DecidableEq for Except

/-- A row of the `tokens` table (columns read by the modelled operations:
`id`, `is_mintable`, `is_burnable`). -/
structure TokenRow where
  id : Nat
  isMintable : Bool
  isBurnable : Bool
deriving DecidableEq, Repr

/-- A row of the `wallets` table (`id BIGSERIAL`, `address UNIQUE`,
`user_id`, `wallet_type`; auto-created wallets get `('system','EOA')`). -/
structure WalletRow where
  id : Nat
  address : String
  userId : String
  walletType : String
deriving DecidableEq, Repr

/-- A row of the `token_balances` table (`wallet_id`, `token_id`,
`balance DECIMAL(78,0)`, with `UNIQUE(wallet_id, token_id)`). -/
structure BalanceRow where
  walletId : Nat
  tokenId : Nat
  balance : Int
deriving DecidableEq, Repr

/-- The portion of the database state touched by the token operations.
`nextWalletId` models the `BIGSERIAL` wallet id sequence. -/
structure TokenState where
  tokens : List TokenRow
  wallets : List WalletRow
  balances : List BalanceRow
  nextWalletId : Nat
deriving DecidableEq, Repr

/-- `SELECT id, ... FROM tokens WHERE id = tid` (first matching row). -/
def findToken (ts : List TokenRow) (tid : Nat) : Option TokenRow :=
  ts.find? (fun t => t.id == tid)

/-- `SELECT id FROM wallets WHERE address = addr`. -/
def findWallet (ws : List WalletRow) (addr : String) : Option WalletRow :=
  ws.find? (fun w => w.address == addr)

/-- The `UNIQUE(wallet_id, token_id)` key predicate. -/
def keyMatch (w t : Nat) (b : BalanceRow) : Bool :=
  b.walletId == w && b.tokenId == t

/-- `SELECT balance FROM token_balances WHERE wallet_id = w AND token_id = t`. -/
def findBal (bs : List BalanceRow) (w t : Nat) : Option BalanceRow :=
  bs.find? (keyMatch w t)

/-- `UPDATE token_balances SET balance = balance + d WHERE wallet_id = w AND
token_id = t` (the code's debit is `d = -amount`, its credit `d = amount`). -/
def updBal (bs : List BalanceRow) (w t : Nat) (d : Int) : List BalanceRow :=
  bs.map (fun b => if keyMatch w t b then { b with balance := b.balance + d } else b)

/-- `INSERT INTO token_balances (wallet_id, token_id, balance) VALUES (w,t,a)
ON CONFLICT (wallet_id, token_id) DO UPDATE SET balance = balance + a`. -/
def upsertBal (bs : List BalanceRow) (w t : Nat) (a : Int) : List BalanceRow :=
  match findBal bs w t with
  | some _ => updBal bs w t a
  | none => bs ++ [⟨w, t, a⟩]

/-- The `tb JOIN wallets w ON tb.wallet_id = w.id WHERE w.address = addr AND
tb.token_id = tid` lookup used by burn and transfer: `none` when either the
wallet row or the balance row is absent. -/
def lookupBal (st : TokenState) (addr : String) (tid : Nat) : Option BalanceRow :=
  match findWallet st.wallets addr with
  | none => none
  | some w => findBal st.balances w.id tid

/-- Get-or-create of the destination wallet (used by mint and transfer):
returns the wallet row and the possibly-extended state. -/
def getOrCreateWallet (st : TokenState) (addr : String) : WalletRow × TokenState :=
  match findWallet st.wallets addr with
  | some w => (w, st)
  | none =>
      let w : WalletRow := ⟨st.nextWalletId, addr, "system", "EOA"⟩
      (w, { st with wallets := st.wallets ++ [w], nextWalletId := st.nextWalletId + 1 })

/-- `MintTokenRequest`. -/
structure MintTokenRequest where
  tokenId : Nat
  toAddress : String
  amount : Int
deriving DecidableEq, Repr

/-- `BurnTokenRequest`. -/
structure BurnTokenRequest where
  tokenId : Nat
  fromAddress : String
  amount : Int
deriving DecidableEq, Repr

/-- `TransferTokenRequest`. -/
structure TransferTokenRequest where
  tokenId : Nat
  fromAddress : String
  toAddress : String
  amount : Int
deriving DecidableEq, Repr

/-- `mintToken` (token.ts): falsy-parameter guard, token lookup, mintable
check, get-or-create destination wallet, then upsert of the balance row
adding `amount`.  No check on the sign or size of `amount` is performed. -/
def mintToken (st : TokenState) (req : MintTokenRequest) : Except Err TokenState :=
  if req.tokenId == 0 || req.toAddress == "" then .error .missingParams else
  match findToken st.tokens req.tokenId with
  | none => .error .tokenNotFound
  | some t =>
    if !t.isMintable then .error .notMintable else
    .ok { (getOrCreateWallet st req.toAddress).2 with
          balances := upsertBal (getOrCreateWallet st req.toAddress).2.balances
            (getOrCreateWallet st req.toAddress).1.id req.tokenId req.amount }

/-- `burnToken` (token.ts): falsy-parameter guard, token lookup, burnable
check, joined balance lookup; a missing balance row and an insufficient
balance fail with the same error ("Insufficient balance to burn"); otherwise
subtract `amount` from the row. -/
def burnToken (st : TokenState) (req : BurnTokenRequest) : Except Err TokenState :=
  if req.tokenId == 0 || req.fromAddress == "" then .error .missingParams else
  match findToken st.tokens req.tokenId with
  | none => .error .tokenNotFound
  | some t =>
    if !t.isBurnable then .error .notBurnable else
    match lookupBal st req.fromAddress req.tokenId with
    | none => .error .insufficientBalance
    | some b =>
      if b.balance < req.amount then .error .insufficientBalance else
      .ok { st with balances := updBal st.balances b.walletId req.tokenId (-req.amount) }

/-- `transferToken` (token.ts): falsy-parameter guard, joined sender-balance
lookup (missing row and insufficient balance fail alike), get-or-create of
the destination wallet, then — inside one BEGIN/COMMIT — debit of the sender
row and upsert-credit of the receiver row.  No token-table lookup occurs. -/
def transferToken (st : TokenState) (req : TransferTokenRequest) : Except Err TokenState :=
  if req.tokenId == 0 || req.fromAddress == "" || req.toAddress == "" then
    .error .missingParams else
  match lookupBal st req.fromAddress req.tokenId with
  | none => .error .insufficientBalance
  | some fromBal =>
    if fromBal.balance < req.amount then .error .insufficientBalance else
    .ok { (getOrCreateWallet st req.toAddress).2 with
          balances := upsertBal
            (updBal (getOrCreateWallet st req.toAddress).2.balances
              fromBal.walletId req.tokenId (-req.amount))
            (getOrCreateWallet st req.toAddress).1.id req.tokenId req.amount }

/-- One ledger operation, for reasoning about sequences. -/
inductive Op where
  | mint : MintTokenRequest → Op
  | burn : BurnTokenRequest → Op
  | transfer : TransferTokenRequest → Op
deriving DecidableEq, Repr

/-- Run one operation against the stored state: an error path leaves the
database unchanged (every throw happens before any mutating statement, and
the transfer write block cannot fail once entered). -/
def runOp (st : TokenState) (op : Op) : TokenState :=
  match op with
  | .mint r => match mintToken st r with | .ok s => s | .error _ => st
  | .burn r => match burnToken st r with | .ok s => s | .error _ => st
  | .transfer r => match transferToken st r with | .ok s => s | .error _ => st

/-- Run a sequence of ledger operations. -/
def runOps (st : TokenState) (ops : List Op) : TokenState :=
  ops.foldl runOp st

/-- Every balance row is non-negative. -/
def NonNeg (st : TokenState) : Prop :=
  ∀ b ∈ st.balances, 0 ≤ b.balance

/-- The `UNIQUE(wallet_id, token_id)` schema constraint, on a bare list of
balance rows. -/
def BalUnique (bs : List BalanceRow) : Prop :=
  bs.Pairwise (fun a b => ¬(a.walletId = b.walletId ∧ a.tokenId = b.tokenId))

/-- The `UNIQUE(wallet_id, token_id)` schema constraint on `token_balances`. -/
def KeysOK (st : TokenState) : Prop :=
  BalUnique st.balances

/-- The amount carried by an operation. -/
def Op.amount : Op → Int
  | .mint r => r.amount
  | .burn r => r.amount
  | .transfer r => r.amount

instance (st : TokenState) : Decidable (NonNeg st) := by
  unfold NonNeg; infer_instance

instance (bs : List BalanceRow) : Decidable (BalUnique bs) := by
  unfold BalUnique; infer_instance

instance (st : TokenState) : Decidable (KeysOK st) := by
  unfold KeysOK; infer_instance

/-- The balance a reader observes for (address, token): the joined lookup,
with 0 for a missing wallet or balance row (this is the read view only —
the services themselves never substitute 0 for a missing row). -/
def bal (st : TokenState) (addr : String) (tid : Nat) : Int :=
  match lookupBal st addr tid with
  | none => 0
  | some b => b.balance

/-- `wallets.id` is a primary key. -/
def WalletIdsOK (st : TokenState) : Prop :=
  st.wallets.Pairwise (fun a b => a.id ≠ b.id)

/-- The `BIGSERIAL` sequence is ahead of every existing wallet id. -/
def WalletIdsFresh (st : TokenState) : Prop :=
  ∀ w ∈ st.wallets, w.id < st.nextWalletId

/-- `token_balances.wallet_id REFERENCES wallets(id)`. -/
def BalRefsOK (st : TokenState) : Prop :=
  ∀ b ∈ st.balances, ∃ w ∈ st.wallets, w.id = b.walletId

/-- Well-formedness of a ledger state: exactly the guarantees the schema
(primary keys, UNIQUE constraints, BIGSERIAL, foreign keys) provides. -/
def WF (st : TokenState) : Prop :=
  KeysOK st ∧ WalletIdsOK st ∧ WalletIdsFresh st ∧ BalRefsOK st

instance (st : TokenState) : Decidable (WalletIdsOK st) := by
  unfold WalletIdsOK; infer_instance

instance (st : TokenState) : Decidable (WalletIdsFresh st) := by
  unfold WalletIdsFresh; infer_instance

instance (st : TokenState) : Decidable (BalRefsOK st) := by
  unfold BalRefsOK; infer_instance

instance (st : TokenState) : Decidable (WF st) := by
  unfold WF; infer_instance

/-! ## Marketplace service (NFT listings) -/

/-- Listing lifecycle status (`listing_status` enum). -/
inductive LStatus where
  | active | sold | cancelled | expired
deriving DecidableEq, Repr

/-- A row of `nft_metadata` (columns read/written by the modelled
operations: the `UNIQUE(token_id, token_number)` key and `owner_address`,
which is nullable in the schema). -/
structure NftRow where
  tokenId : Nat
  tokenNumber : Int
  ownerAddress : Option String
deriving DecidableEq, Repr

/-- A row of `marketplace_listings`. -/
structure ListingRow where
  id : Nat
  tokenId : Nat
  tokenNumber : Int
  sellerAddress : String
  price : Int
  currencyTokenId : Option Nat
  status : LStatus
  expiresAt : Option Int
  soldAt : Option Int
  buyerAddress : Option String
deriving DecidableEq, Repr

/-- The portion of the database state touched by the marketplace
operations; `nextListingId` models the `BIGSERIAL` listing id sequence. -/
structure MarketState where
  nfts : List NftRow
  listings : List ListingRow
  nextListingId : Nat
deriving DecidableEq, Repr

/-- `CreateListingRequest`. -/
structure CreateListingRequest where
  tokenId : Nat
  tokenNumber : Int
  sellerAddress : String
  price : Int
  currencyTokenId : Option Nat
  expiresAt : Option Int
deriving DecidableEq, Repr

/-- `BuyNFTRequest`. -/
structure BuyNFTRequest where
  listingId : Nat
  buyerAddress : String
deriving DecidableEq, Repr

/-- `SELECT owner_address FROM nft_metadata WHERE token_id AND token_number`. -/
def findNft (ns : List NftRow) (tid : Nat) (tnum : Int) : Option NftRow :=
  ns.find? (fun n => n.tokenId == tid && n.tokenNumber == tnum)

/-- `SELECT * FROM marketplace_listings WHERE id = lid AND status = 'active'`. -/
def findActiveListing (ls : List ListingRow) (lid : Nat) : Option ListingRow :=
  ls.find? (fun l => l.id == lid && l.status == LStatus.active)

/-- The state after `createListing`'s `INSERT INTO marketplace_listings`:
a fresh row with server-assigned id, status `active`, and null
`sold_at`/`buyer_address`. -/
def insertedListing (st : MarketState) (req : CreateListingRequest) : MarketState :=
  { st with
    listings := st.listings ++
      [⟨st.nextListingId, req.tokenId, req.tokenNumber, req.sellerAddress,
        req.price, req.currencyTokenId, .active, req.expiresAt, none, none⟩],
    nextListingId := st.nextListingId + 1 }

/-- `createListing` (NFT service): falsy-parameter guard, NFT lookup by
(tokenId, tokenNumber), ownership check against `owner_address`, then an
unconditional insert of a fresh `active` listing.  No check for an already
existing active listing on the same (tokenId, tokenNumber) is performed. -/
def createListing (st : MarketState) (req : CreateListingRequest) :
    Except Err MarketState :=
  if req.tokenId == 0 || req.sellerAddress == "" then .error .missingParams else
  match findNft st.nfts req.tokenId req.tokenNumber with
  | none => .error .nftNotFound
  | some nft =>
    if nft.ownerAddress != some req.sellerAddress then .error .notOwner else
    .ok (insertedListing st req)

/-- `buyNFT` (NFT service): falsy-parameter guard, lookup of the listing by
(id, status = 'active'), expiry check (`expires_at` set and strictly before
`now` fails, with **no write** — the listing row keeps status `active`),
then — inside one BEGIN/COMMIT — the listing row is set to
(`sold`, `sold_at = now`, `buyer_address`) and every `nft_metadata` row with
the listing's (token_id, token_number) gets `owner_address = buyer`.
`now` is the wall clock, `txHash` the generated random transaction hash. -/
def buyNFT (st : MarketState) (now : Int) (txHash : String) (req : BuyNFTRequest) :
    Except Err (MarketState × String) :=
  if req.listingId == 0 || req.buyerAddress == "" then .error .missingParams else
  match findActiveListing st.listings req.listingId with
  | none => .error .listingNotFoundOrInactive
  | some listing =>
    match listing.expiresAt with
    | some e =>
      if e < now then .error .listingExpired else
      .ok (buyCommit st now req listing, txHash)
    | none => .ok (buyCommit st now req listing, txHash)
where
  /-- The two UPDATE statements of the BEGIN/COMMIT block. -/
  buyCommit (st : MarketState) (now : Int) (req : BuyNFTRequest)
      (listing : ListingRow) : MarketState :=
    { st with
      listings := st.listings.map (fun l =>
        if l.id == req.listingId then
          { l with status := .sold, soldAt := some now,
                   buyerAddress := some req.buyerAddress }
        else l),
      nfts := st.nfts.map (fun n =>
        if n.tokenId == listing.tokenId && n.tokenNumber == listing.tokenNumber then
          { n with ownerAddress := some req.buyerAddress }
        else n) }

/-- `cancelListing` (NFT service): falsy-parameter guard, then a single
`UPDATE ... SET status = 'cancelled' WHERE id AND seller_address AND
status = 'active' RETURNING id`; when no row matches, the returned row is
absent and the call fails. -/
def cancelListing (st : MarketState) (lid : Nat) (sellerAddress : String) :
    Except Err MarketState :=
  if lid == 0 || sellerAddress == "" then .error .missingParams else
  if st.listings.any (fun l =>
      l.id == lid && l.sellerAddress == sellerAddress && l.status == LStatus.active) then
    .ok { st with listings := st.listings.map (fun l =>
      if l.id == lid && l.sellerAddress == sellerAddress && l.status == LStatus.active
      then { l with status := .cancelled } else l) }
  else .error .listingNotFoundOrNotSeller

/-- Run `buyNFT` against the stored state (error paths leave the database
unchanged: every throw happens before the BEGIN). -/
def runBuy (st : MarketState) (now : Int) (txHash : String) (req : BuyNFTRequest) :
    MarketState :=
  match buyNFT st now txHash req with
  | .ok (s, _) => s
  | .error _ => st

/-- Run `cancelListing` against the stored state (the conditional UPDATE
matches no row on the error path, so nothing changes). -/
def runCancel (st : MarketState) (lid : Nat) (sellerAddress : String) : MarketState :=
  match cancelListing st lid sellerAddress with
  | .ok s => s
  | .error _ => st

/-- The number of `active` listings for a given (tokenId, tokenNumber). -/
def activeCount (st : MarketState) (tid : Nat) (tnum : Int) : Nat :=
  (st.listings.filter (fun l =>
    l.tokenId == tid && l.tokenNumber == tnum && l.status == LStatus.active)).length


/-! ## Lemmas about the balance-row primitives -/

theorem keyMatch_set_balance (w t : Nat) (b : BalanceRow) (x : Int) :
    keyMatch w t { b with balance := x } = keyMatch w t b := rfl

theorem keyMatch_iff {w t : Nat} {b : BalanceRow} :
    keyMatch w t b = true ↔ b.walletId = w ∧ b.tokenId = t := by
  simp [keyMatch]

theorem findBal_updBal_same (bs : List BalanceRow) (w t : Nat) (d : Int) :
    findBal (updBal bs w t d) w t
      = (findBal bs w t).map (fun b => { b with balance := b.balance + d }) := by
  induction bs with
  | nil => rfl
  | cons b bs ih =>
    by_cases h : keyMatch w t b
    · simp [findBal, updBal, List.find?_cons_of_pos, h, keyMatch_set_balance]
    · simpa [findBal, updBal, List.find?_cons_of_neg, h, keyMatch_set_balance] using ih

theorem findBal_updBal_ne (bs : List BalanceRow) {w t w' t' : Nat} (d : Int)
    (h : w' ≠ w ∨ t' ≠ t) :
    findBal (updBal bs w t d) w' t' = findBal bs w' t' := by
  induction bs with
  | nil => rfl
  | cons b bs ih =>
    by_cases hb : keyMatch w t b
    · have hb' : keyMatch w' t' b = false := by
        rcases keyMatch_iff.mp hb with ⟨h1, h2⟩
        simp [keyMatch, h1, h2]
        omega
      simp only [updBal, List.map_cons, if_pos hb, findBal] at *
      rw [List.find?_cons_of_neg, List.find?_cons_of_neg]
      · exact ih
      · simp [hb']
      · simp [keyMatch_set_balance, hb']
    · by_cases hb' : keyMatch w' t' b
      · simp [findBal, updBal, if_neg hb, List.find?_cons_of_pos, hb']
      · simp only [updBal, List.map_cons, if_neg hb, findBal] at *
        rw [List.find?_cons_of_neg, List.find?_cons_of_neg]
        · exact ih
        · simp [hb']
        · simp [hb']

theorem mem_updBal {bs : List BalanceRow} {w t : Nat} {d : Int} {x : BalanceRow}
    (hx : x ∈ updBal bs w t d) :
    x ∈ bs ∨ ∃ y ∈ bs, keyMatch w t y ∧ x = { y with balance := y.balance + d } := by
  rcases List.mem_map.mp hx with ⟨y, hy, hxy⟩
  by_cases h : keyMatch w t y
  · right; exact ⟨y, hy, h, by simpa [if_pos h] using hxy.symm⟩
  · left; rw [if_neg h] at hxy; exact hxy ▸ hy

theorem updBal_updBal (bs : List BalanceRow) (w t : Nat) (d₁ d₂ : Int) :
    updBal (updBal bs w t d₁) w t d₂ = updBal bs w t (d₁ + d₂) := by
  unfold updBal
  rw [List.map_map]
  refine List.map_congr_left (fun b _ => ?_)
  by_cases h : keyMatch w t b
  · simp [Function.comp, h, keyMatch_set_balance, Int.add_assoc]
  · simp [Function.comp, h]

theorem updBal_zero (bs : List BalanceRow) (w t : Nat) :
    updBal bs w t 0 = bs := by
  unfold updBal
  have hpt : ∀ b ∈ bs,
      (if keyMatch w t b then { b with balance := b.balance + 0 } else b) = b := by
    intro b _
    by_cases h : keyMatch w t b <;> simp [h]
  rw [List.map_congr_left hpt]; simp

/-- Under the uniqueness constraint, any row matching the key of a found row
is the found row itself. -/
theorem findBal_unique {bs : List BalanceRow} {w t : Nat} {b x : BalanceRow}
    (hu : BalUnique bs) (hf : findBal bs w t = some b) (hx : x ∈ bs)
    (hk : keyMatch w t x) : x = b := by
  induction bs with
  | nil => cases hx
  | cons c cs ih =>
    rcases List.pairwise_cons.mp hu with ⟨hc, hcs⟩
    by_cases h : keyMatch w t c
    · have hb : c = b := by
        simpa [findBal, List.find?_cons_of_pos, h] using hf
      rcases List.mem_cons.mp hx with rfl | hx'
      · exact hb
      · exact absurd ⟨by rw [keyMatch_iff.mp hk |>.1, (keyMatch_iff.mp h).1],
          by rw [keyMatch_iff.mp hk |>.2, (keyMatch_iff.mp h).2]⟩ (hc x hx')
    · rcases List.mem_cons.mp hx with rfl | hx'
      · exact absurd hk (by simp [h])
      · exact ih hcs (by simpa [findBal, List.find?_cons_of_neg, h] using hf) hx'

theorem balUnique_updBal {bs : List BalanceRow} (w t : Nat) (d : Int)
    (hu : BalUnique bs) : BalUnique (updBal bs w t d) := by
  refine List.Pairwise.map _ (fun a b hab => ?_) hu
  by_cases ha : keyMatch w t a <;> by_cases hb : keyMatch w t b <;>
    simpa [ha, hb] using hab

theorem balUnique_append {bs : List BalanceRow} {r : BalanceRow}
    (hu : BalUnique bs)
    (hfresh : ∀ b ∈ bs, ¬(b.walletId = r.walletId ∧ b.tokenId = r.tokenId)) :
    BalUnique (bs ++ [r]) := by
  refine List.pairwise_append.mpr ⟨hu, List.pairwise_singleton _ _, ?_⟩
  intro a ha b hb
  rcases List.mem_singleton.mp hb with rfl
  exact hfresh a ha

theorem balUnique_upsertBal {bs : List BalanceRow} (w t : Nat) (a : Int)
    (hu : BalUnique bs) : BalUnique (upsertBal bs w t a) := by
  unfold upsertBal
  cases hf : findBal bs w t with
  | some b => exact balUnique_updBal w t a hu
  | none =>
    refine balUnique_append hu (fun b hb hk => ?_)
    have := List.find?_eq_none.mp hf b hb
    simp [keyMatch] at this
    exact this hk.1 hk.2

/-! ## Preservation of the schema and non-negativity invariants -/

theorem getOrCreateWallet_balances (st : TokenState) (addr : String) :
    (getOrCreateWallet st addr).2.balances = st.balances := by
  unfold getOrCreateWallet
  cases findWallet st.wallets addr <;> rfl

theorem nonneg_upsertBal {bs : List BalanceRow} {w t : Nat} {a : Int}
    (hnn : ∀ b ∈ bs, 0 ≤ b.balance) (ha : 0 ≤ a) :
    ∀ b ∈ upsertBal bs w t a, 0 ≤ b.balance := by
  intro b hb
  unfold upsertBal at hb
  cases hf : findBal bs w t with
  | some b0 =>
    rw [hf] at hb
    rcases mem_updBal hb with h | ⟨y, hy, _, rfl⟩
    · exact hnn b h
    · exact add_nonneg (hnn y hy) ha
  | none =>
    rw [hf] at hb
    rcases List.mem_append.mp hb with h | h
    · exact hnn b h
    · rcases List.mem_singleton.mp h with rfl
      exact ha

theorem nonneg_debit {bs : List BalanceRow} {w t : Nat} {amt : Int} {b0 : BalanceRow}
    (hu : BalUnique bs) (hnn : ∀ b ∈ bs, 0 ≤ b.balance)
    (hf : findBal bs w t = some b0) (hge : amt ≤ b0.balance) :
    ∀ b ∈ updBal bs w t (-amt), 0 ≤ b.balance := by
  intro b hb
  rcases mem_updBal hb with h | ⟨y, hy, hk, rfl⟩
  · exact hnn b h
  · have hy0 : y = b0 := findBal_unique hu hf hy hk
    show 0 ≤ y.balance + -amt
    rw [hy0]
    omega

theorem lookupBal_found {st : TokenState} {addr : String} {tid : Nat} {b : BalanceRow}
    (h : lookupBal st addr tid = some b) :
    b.tokenId = tid ∧ findBal st.balances b.walletId tid = some b := by
  unfold lookupBal at h
  cases hw : findWallet st.wallets addr with
  | none => rw [hw] at h; cases h
  | some w =>
    rw [hw] at h
    have hk := List.find?_some h
    rcases keyMatch_iff.mp hk with ⟨h1, h2⟩
    exact ⟨h2, by rw [h1]; exact h⟩

theorem mintToken_preserves {st st' : TokenState} {r : MintTokenRequest}
    (h : mintToken st r = .ok st') (hu : KeysOK st) (hnn : NonNeg st)
    (ha : 0 < r.amount) : KeysOK st' ∧ NonNeg st' := by
  unfold mintToken at h
  split at h
  · cases h
  split at h
  · cases h
  split at h
  · cases h
  rcases Except.ok.inj h with rfl
  constructor
  · refine balUnique_upsertBal _ _ _ ?_
    rw [getOrCreateWallet_balances]
    exact hu
  · intro b hb
    refine nonneg_upsertBal ?_ (le_of_lt ha) b hb
    rw [getOrCreateWallet_balances]
    exact hnn

theorem burnToken_preserves {st st' : TokenState} {r : BurnTokenRequest}
    (h : burnToken st r = .ok st') (hu : KeysOK st) (hnn : NonNeg st) :
    KeysOK st' ∧ NonNeg st' := by
  unfold burnToken at h
  split at h
  · cases h
  split at h
  · cases h
  split at h
  · cases h
  split at h
  · cases h
  rename_i b heq
  split at h
  · cases h
  rename_i hlt
  rcases Except.ok.inj h with rfl
  rcases lookupBal_found heq with ⟨htid, hfb⟩
  refine ⟨balUnique_updBal _ _ _ hu, ?_⟩
  intro x hx
  exact nonneg_debit hu hnn hfb (by omega) x hx

theorem transferToken_preserves {st st' : TokenState} {r : TransferTokenRequest}
    (h : transferToken st r = .ok st') (hu : KeysOK st) (hnn : NonNeg st)
    (ha : 0 < r.amount) : KeysOK st' ∧ NonNeg st' := by
  unfold transferToken at h
  split at h
  · cases h
  split at h
  · cases h
  rename_i fromBal heq
  split at h
  · cases h
  rename_i hlt
  rcases Except.ok.inj h with rfl
  rcases lookupBal_found heq with ⟨htid, hfb⟩
  constructor
  · refine balUnique_upsertBal _ _ _ ?_
    rw [getOrCreateWallet_balances]
    exact balUnique_updBal _ _ _ hu
  · intro x hx
    refine nonneg_upsertBal ?_ (le_of_lt ha) x hx
    rw [getOrCreateWallet_balances]
    exact nonneg_debit hu hnn hfb (by omega)

theorem runOp_preserves (st : TokenState) (op : Op)
    (hu : KeysOK st) (hnn : NonNeg st) (ha : 0 < op.amount) :
    KeysOK (runOp st op) ∧ NonNeg (runOp st op) := by
  cases op with
  | mint r =>
    simp only [runOp]
    cases h : mintToken st r with
    | ok s => exact mintToken_preserves h hu hnn ha
    | error _ => exact ⟨hu, hnn⟩
  | burn r =>
    simp only [runOp]
    cases h : burnToken st r with
    | ok s => exact burnToken_preserves h hu hnn
    | error _ => exact ⟨hu, hnn⟩
  | transfer r =>
    simp only [runOp]
    cases h : transferToken st r with
    | ok s => exact transferToken_preserves h hu hnn ha
    | error _ => exact ⟨hu, hnn⟩

/-! ## Lemmas about wallet lookup and the balance upsert -/

theorem findWallet_some {ws : List WalletRow} {addr : String} {w : WalletRow}
    (h : findWallet ws addr = some w) : w.address = addr := by
  have := List.find?_some h
  simpa using this

theorem findWallet_mem {ws : List WalletRow} {addr : String} {w : WalletRow}
    (h : findWallet ws addr = some w) : w ∈ ws :=
  List.mem_of_find?_eq_some h

theorem findWallet_append (ws : List WalletRow) (w : WalletRow) (addr : String) :
    findWallet (ws ++ [w]) addr = (findWallet ws addr).or (findWallet [w] addr) :=
  List.find?_append

/-- Two wallet rows with the same primary key are the same row. -/
theorem wallet_id_inj {l : List WalletRow}
    (hp : l.Pairwise (fun a b => a.id ≠ b.id)) {a b : WalletRow}
    (ha : a ∈ l) (hb : b ∈ l) (hid : a.id = b.id) : a = b := by
  induction l with
  | nil => cases ha
  | cons c cs ih =>
    rcases List.pairwise_cons.mp hp with ⟨hc, hcs⟩
    rcases List.mem_cons.mp ha with rfl | ha'
    · rcases List.mem_cons.mp hb with rfl | hb'
      · rfl
      · exact absurd hid (hc b hb')
    · rcases List.mem_cons.mp hb with rfl | hb'
      · exact absurd hid.symm (hc a ha')
      · exact ih hcs ha' hb'

theorem findBal_singleton_same (w t : Nat) (a : Int) :
    findBal [⟨w, t, a⟩] w t = some ⟨w, t, a⟩ := by
  simp [findBal, keyMatch]

theorem findBal_singleton_ne {w t w' t' : Nat} (a : Int) (h : w' ≠ w ∨ t' ≠ t) :
    findBal [⟨w, t, a⟩] w' t' = none := by
  simp [findBal, keyMatch]
  omega

theorem findBal_append (bs : List BalanceRow) (r : BalanceRow) (w t : Nat) :
    findBal (bs ++ [r]) w t = (findBal bs w t).or (findBal [r] w t) :=
  List.find?_append

theorem findBal_upsert_same_found {bs : List BalanceRow} {w t : Nat} {a : Int}
    {b : BalanceRow} (h : findBal bs w t = some b) :
    findBal (upsertBal bs w t a) w t = some { b with balance := b.balance + a } := by
  unfold upsertBal
  rw [h, findBal_updBal_same, h]
  rfl

theorem findBal_upsert_same_none {bs : List BalanceRow} {w t : Nat} {a : Int}
    (h : findBal bs w t = none) :
    findBal (upsertBal bs w t a) w t = some ⟨w, t, a⟩ := by
  unfold upsertBal
  rw [h, findBal_append, h, Option.none_or, findBal_singleton_same]

theorem findBal_upsert_ne {bs : List BalanceRow} {w t : Nat} {a : Int} {w' t' : Nat}
    (h : w' ≠ w ∨ t' ≠ t) :
    findBal (upsertBal bs w t a) w' t' = findBal bs w' t' := by
  unfold upsertBal
  cases hf : findBal bs w t with
  | some b => exact findBal_updBal_ne bs a h
  | none => rw [findBal_append, findBal_singleton_ne a h, Option.or_none]

/-- A decomposed view of a successful joined balance lookup. -/
theorem lookupBal_found' {st : TokenState} {addr : String} {tid : Nat} {b : BalanceRow}
    (h : lookupBal st addr tid = some b) :
    ∃ w, findWallet st.wallets addr = some w ∧ b.walletId = w.id ∧ b.tokenId = tid ∧
      findBal st.balances w.id tid = some b := by
  unfold lookupBal at h
  cases hw : findWallet st.wallets addr with
  | none => rw [hw] at h; cases h
  | some w =>
    rw [hw] at h
    have hk := List.find?_some h
    rcases keyMatch_iff.mp hk with ⟨h1, h2⟩
    exact ⟨w, rfl, h1, h2, h⟩

theorem bal_of_lookup {st : TokenState} {addr : String} {tid : Nat} {b : BalanceRow}
    (h : lookupBal st addr tid = some b) : bal st addr tid = b.balance := by
  unfold bal
  rw [h]

theorem bal_of_lookup_none {st : TokenState} {addr : String} {tid : Nat}
    (h : lookupBal st addr tid = none) : bal st addr tid = 0 := by
  unfold bal
  rw [h]

/-- No balance row can reference the not-yet-assigned wallet id. -/
theorem findBal_fresh_none {st : TokenState} (hfresh : WalletIdsFresh st)
    (hrefs : BalRefsOK st) (t : Nat) :
    findBal st.balances st.nextWalletId t = none := by
  apply List.find?_eq_none.mpr
  intro b hb hk
  rcases keyMatch_iff.mp hk with ⟨h1, _⟩
  rcases hrefs b hb with ⟨w, hw, hwid⟩
  have := hfresh w hw
  omega

/-- **C4** (functional_correctness): for every successful `transferToken` of
amount A for token T from wallet W1 to wallet W2 with W1 ≠ W2, the post
state has `bal(W1,T)` decreased by exactly A and `bal(W2,T)` increased by
exactly A (from 0 when W2 had no balance row); on any failure the state —
hence every balance — is unchanged (the code throws before the BEGIN, so no
one-sided intermediate state is a result state). -/
theorem transfer_moves_exact_amount (st st' : TokenState) (r : TransferTokenRequest)
    (hwf : WF st) (hne : r.fromAddress ≠ r.toAddress)
    (hok : transferToken st r = .ok st') :
    bal st' r.fromAddress r.tokenId = bal st r.fromAddress r.tokenId - r.amount ∧
    bal st' r.toAddress r.tokenId = bal st r.toAddress r.tokenId + r.amount ∧
    (∀ (st₀ : TokenState) (rq : TransferTokenRequest) (e : Err),
      transferToken st₀ rq = .error e → runOp st₀ (.transfer rq) = st₀) := by
  obtain ⟨hu, hids, hfresh, hrefs⟩ := hwf
  unfold transferToken at hok
  split at hok
  · cases hok
  split at hok
  · cases hok
  rename_i fromBal heq
  split at hok
  · cases hok
  rename_i hlt
  rcases Except.ok.inj hok with rfl
  rcases lookupBal_found' heq with ⟨wf, hwff, hbw, hbt, hfb⟩
  have hwfaddr : wf.address = r.fromAddress := findWallet_some hwff
  refine ⟨?_, ?_, fun st₀ rq e hre => by simp [runOp, hre]⟩ <;>
    unfold getOrCreateWallet <;>
    cases hw2 : findWallet st.wallets r.toAddress
  -- sender side, destination wallet absent (freshly created)
  · have hfid : wf.id < st.nextWalletId := hfresh wf (findWallet_mem hwff)
    have hl' : lookupBal
        { st with
          wallets := st.wallets ++ [⟨st.nextWalletId, r.toAddress, "system", "EOA"⟩],
          nextWalletId := st.nextWalletId + 1,
          balances := upsertBal
            (updBal st.balances fromBal.walletId r.tokenId (-r.amount))
            st.nextWalletId r.tokenId r.amount }
        r.fromAddress r.tokenId
        = some { fromBal with balance := fromBal.balance + -r.amount } := by
      unfold lookupBal
      dsimp only
      rw [findWallet_append, hwff, Option.or_some]
      dsimp only
      rw [hbw, findBal_upsert_ne (Or.inl (by omega : wf.id ≠ st.nextWalletId)),
        findBal_updBal_same, hfb]
      simp [hbw]
    rw [bal_of_lookup hl', bal_of_lookup heq]
    dsimp only
    omega
  -- sender side, destination wallet exists
  · rename_i wt
    have hwtaddr : wt.address = r.toAddress := findWallet_some hw2
    have hidne : wf.id ≠ wt.id := by
      intro hEq
      have hwe : wf = wt := wallet_id_inj hids (findWallet_mem hwff) (findWallet_mem hw2) hEq
      exact hne (by rw [← hwfaddr, hwe, hwtaddr])
    have hl' : lookupBal
        { st with
          balances := upsertBal
            (updBal st.balances fromBal.walletId r.tokenId (-r.amount))
            wt.id r.tokenId r.amount }
        r.fromAddress r.tokenId
        = some { fromBal with balance := fromBal.balance + -r.amount } := by
      unfold lookupBal
      dsimp only
      rw [hwff]
      dsimp only
      rw [hbw, findBal_upsert_ne (Or.inl hidne), findBal_updBal_same, hfb]
      simp [hbw]
    rw [bal_of_lookup hl', bal_of_lookup heq]
    dsimp only
    omega
  -- receiver side, destination wallet absent (freshly created)
  · have hfid : wf.id < st.nextWalletId := hfresh wf (findWallet_mem hwff)
    have hl0 : lookupBal st r.toAddress r.tokenId = none := by
      unfold lookupBal
      rw [hw2]
    have hl' : lookupBal
        { st with
          wallets := st.wallets ++ [⟨st.nextWalletId, r.toAddress, "system", "EOA"⟩],
          nextWalletId := st.nextWalletId + 1,
          balances := upsertBal
            (updBal st.balances fromBal.walletId r.tokenId (-r.amount))
            st.nextWalletId r.tokenId r.amount }
        r.toAddress r.tokenId
        = some ⟨st.nextWalletId, r.tokenId, r.amount⟩ := by
      unfold lookupBal
      dsimp only
      rw [findWallet_append, hw2, Option.none_or]
      have hwt1 : findWallet [⟨st.nextWalletId, r.toAddress, "system", "EOA"⟩]
          r.toAddress = some ⟨st.nextWalletId, r.toAddress, "system", "EOA"⟩ := by
        simp [findWallet]
      rw [hwt1]
      dsimp only
      apply findBal_upsert_same_none
      rw [hbw, findBal_updBal_ne _ _ (Or.inl (by omega : st.nextWalletId ≠ wf.id))]
      exact findBal_fresh_none hfresh hrefs r.tokenId
    rw [bal_of_lookup hl', bal_of_lookup_none hl0]
    dsimp only
    omega
  -- receiver side, destination wallet exists
  · rename_i wt
    have hwtaddr : wt.address = r.toAddress := findWallet_some hw2
    have hidne : wf.id ≠ wt.id := by
      intro hEq
      have hwe : wf = wt := wallet_id_inj hids (findWallet_mem hwff) (findWallet_mem hw2) hEq
      exact hne (by rw [← hwfaddr, hwe, hwtaddr])
    cases hfd : findBal st.balances wt.id r.tokenId with
    | some b2 =>
      have hl0 : lookupBal st r.toAddress r.tokenId = some b2 := by
        unfold lookupBal
        rw [hw2]
        exact hfd
      have hl' : lookupBal
          { st with
            balances := upsertBal
              (updBal st.balances fromBal.walletId r.tokenId (-r.amount))
              wt.id r.tokenId r.amount }
          r.toAddress r.tokenId
          = some { b2 with balance := b2.balance + r.amount } := by
        unfold lookupBal
        dsimp only
        rw [hw2]
        dsimp only
        apply findBal_upsert_same_found
        rw [hbw, findBal_updBal_ne _ _ (Or.inl (Ne.symm hidne))]
        exact hfd
      rw [bal_of_lookup hl', bal_of_lookup hl0]
    | none =>
      have hl0 : lookupBal st r.toAddress r.tokenId = none := by
        unfold lookupBal
        rw [hw2]
        exact hfd
      have hl' : lookupBal
          { st with
            balances := upsertBal
              (updBal st.balances fromBal.walletId r.tokenId (-r.amount))
              wt.id r.tokenId r.amount }
          r.toAddress r.tokenId
          = some ⟨wt.id, r.tokenId, r.amount⟩ := by
        unfold lookupBal
        dsimp only
        rw [hw2]
        dsimp only
        apply findBal_upsert_same_none
        rw [hbw, findBal_updBal_ne _ _ (Or.inl (Ne.symm hidne))]
        exact hfd
      rw [bal_of_lookup hl', bal_of_lookup_none hl0]
      dsimp only
      omega

/-! ## Sequences of ledger operations -/

/-- Both invariants are preserved along any sequence of operations whose
amounts are positive. -/
theorem runOps_preserves (st : TokenState) (ops : List Op)
    (hu : KeysOK st) (hnn : NonNeg st) (hpos : ∀ op ∈ ops, 0 < op.amount) :
    KeysOK (runOps st ops) ∧ NonNeg (runOps st ops) := by
  induction ops generalizing st with
  | nil => exact ⟨hu, hnn⟩
  | cons op ops ih =>
    simp only [runOps, List.foldl_cons]
    have h1 := runOp_preserves st op hu hnn (hpos op (List.mem_cons_self _ _))
    exact ih (runOp st op) h1.1 h1.2 (fun o ho => hpos o (List.mem_cons_of_mem _ ho))

/-! ## The claims -/

/-- A one-token ledger with no wallets and no balances. -/
def st0 : TokenState := ⟨[⟨1, true, true⟩], [], [], 1⟩

/-- **C1** as stated is false on the code: the ledger `st0` is well-formed
and every balance row is (vacuously) non-negative, yet the single
`mintToken` operation with amount `-5` — accepted because no amount
validation exists — produces a reachable state holding the negative balance
row `(wallet 1, token 1, -5)`. -/
theorem mint_negative_amount_breaks_nonneg :
    WF st0 ∧ NonNeg st0 ∧
    ¬ NonNeg (runOps st0 [Op.mint ⟨1, "0xA", -5⟩]) := by decide

/-- **C1** (amended): starting from a well-formed ledger (the schema's
UNIQUE(wallet_id, token_id) constraint) whose balance rows are all
non-negative, every sequence of mint/burn/transfer operations **whose
amounts are positive** keeps every balance row non-negative after each
operation (i.e. after every prefix of the sequence). -/
theorem nonneg_invariant_pos_amounts (st : TokenState) (ops : List Op)
    (hu : KeysOK st) (hnn : NonNeg st) (hpos : ∀ op ∈ ops, 0 < op.amount) :
    ∀ pre suf : List Op, ops = pre ++ suf → NonNeg (runOps st pre) := by
  intro pre suf hEq
  subst hEq
  exact (runOps_preserves st pre hu hnn
    (fun o ho => hpos o (List.mem_append_left _ ho))).2

theorem nonneg_invariant_pos_amounts_witness :
    NonNeg (runOps st0 [Op.mint ⟨1, "0xAAA", 1000⟩, Op.burn ⟨1, "0xAAA", 500⟩,
      Op.transfer ⟨1, "0xAAA", "0xBBB", 200⟩]) :=
  nonneg_invariant_pos_amounts st0
    [Op.mint ⟨1, "0xAAA", 1000⟩, Op.burn ⟨1, "0xAAA", 500⟩,
      Op.transfer ⟨1, "0xAAA", "0xBBB", 200⟩]
    (by decide) (by decide) (by decide) _ [] (List.append_nil _).symm

/-- **C3** as stated is false on the code: a `mintToken` request with the
non-positive (parseable) amount `-5` is *not* rejected with `InvalidAmount`
before database access — it succeeds, creates the wallet, and writes the
balance row `-5`.  (The only pre-database check on `amount` is the
JavaScript falsy guard, which rejects just a missing/empty string.) -/
theorem mint_accepts_nonpositive_amount :
    mintToken st0 ⟨1, "0xA", -5⟩
      = .ok ⟨[⟨1, true, true⟩], [⟨1, "0xA", "system", "EOA"⟩], [⟨1, 1, -5⟩], 2⟩ ∧
    (-5 : Int) ≤ 0 := by decide

/-- **C3** (amended): the operations validate only the *presence* of their
fields before any database access; the value of a parseable amount is never
validated: `mintToken` on an existing mintable token succeeds for **every**
integer amount, including every amount ≤ 0, writing that amount into the
balance upsert. -/
theorem mint_no_amount_validation (st : TokenState) (r : MintTokenRequest)
    (t : TokenRow) (h1 : r.tokenId ≠ 0) (h2 : r.toAddress ≠ "")
    (ht : findToken st.tokens r.tokenId = some t) (hm : t.isMintable = true) :
    mintToken st r = .ok { (getOrCreateWallet st r.toAddress).2 with
      balances := upsertBal (getOrCreateWallet st r.toAddress).2.balances
        (getOrCreateWallet st r.toAddress).1.id r.tokenId r.amount } := by
  unfold mintToken
  rw [if_neg (by simp [h1, h2]), ht]
  dsimp only
  rw [hm]
  rfl

theorem mint_no_amount_validation_witness :
    mintToken st0 ⟨1, "0xB", -7⟩
      = .ok { (getOrCreateWallet st0 "0xB").2 with
          balances := upsertBal (getOrCreateWallet st0 "0xB").2.balances
            (getOrCreateWallet st0 "0xB").1.id 1 (-7) } :=
  mint_no_amount_validation st0 ⟨1, "0xB", -7⟩ ⟨1, true, true⟩
    (by decide) (by decide) (by decide) (by decide)

/-- **C6**: a burn or transfer of amount A from a wallet whose joined
balance row for the token holds B < A fails with the
insufficient-balance error ("Insufficient balance to burn" /
"Insufficient balance to transfer") and leaves the stored state — hence the
balance B — unchanged. -/
theorem insufficient_balance_rejected (st : TokenState)
    (rb : BurnTokenRequest) (rt : TransferTokenRequest)
    (tk : TokenRow) (bb bt : BalanceRow)
    (hb1 : rb.tokenId ≠ 0) (hb2 : rb.fromAddress ≠ "")
    (hbt : findToken st.tokens rb.tokenId = some tk) (hburn : tk.isBurnable = true)
    (hbl : lookupBal st rb.fromAddress rb.tokenId = some bb)
    (hblt : bb.balance < rb.amount)
    (ht1 : rt.tokenId ≠ 0) (ht2 : rt.fromAddress ≠ "") (ht3 : rt.toAddress ≠ "")
    (htl : lookupBal st rt.fromAddress rt.tokenId = some bt)
    (htlt : bt.balance < rt.amount) :
    burnToken st rb = .error .insufficientBalance ∧ runOp st (.burn rb) = st ∧
    transferToken st rt = .error .insufficientBalance ∧ runOp st (.transfer rt) = st := by
  have h1 : burnToken st rb = .error .insufficientBalance := by
    unfold burnToken
    rw [if_neg (by simp [hb1, hb2]), hbt]
    dsimp only
    rw [if_neg (by simp [hburn]), hbl]
    dsimp only
    rw [if_pos hblt]
  have h2 : transferToken st rt = .error .insufficientBalance := by
    unfold transferToken
    rw [if_neg (by simp [ht1, ht2, ht3]), htl]
    dsimp only
    rw [if_pos htlt]
  exact ⟨h1, by simp [runOp, h1], h2, by simp [runOp, h2]⟩

/-- A ledger with one burnable token, one wallet `0xAAA` holding 500 of it,
and the sequence counter at 2. -/
def st1 : TokenState :=
  ⟨[⟨1, true, true⟩], [⟨1, "0xAAA", "u1", "EOA"⟩], [⟨1, 1, 500⟩], 2⟩

theorem insufficient_balance_rejected_witness :
    burnToken st1 ⟨1, "0xAAA", 600⟩ = .error .insufficientBalance ∧
    runOp st1 (.burn ⟨1, "0xAAA", 600⟩) = st1 ∧
    transferToken st1 ⟨1, "0xAAA", "0xBBB", 600⟩ = .error .insufficientBalance ∧
    runOp st1 (.transfer ⟨1, "0xAAA", "0xBBB", 600⟩) = st1 :=
  insufficient_balance_rejected st1 ⟨1, "0xAAA", 600⟩ ⟨1, "0xAAA", "0xBBB", 600⟩
    ⟨1, true, true⟩ ⟨1, 1, 500⟩ ⟨1, 1, 500⟩
    (by decide) (by decide) (by decide) (by decide) (by decide) (by decide)
    (by decide) (by decide) (by decide) (by decide) (by decide)

/-- A ledger with one burnable token and one wallet `0xA` that has **no**
balance row for it. -/
def st2 : TokenState := ⟨[⟨1, true, true⟩], [⟨1, "0xA", "u1", "EOA"⟩], [], 2⟩

/-- **C7** as stated is false on the code: burning from an address with no
balance row for an existing burnable token fails with the *same*
"Insufficient balance to burn" error as an underfunded burn — there is no
distinct `WalletNotFound` error kind on this path (`if (!balance || ...)`
collapses both cases). -/
theorem burn_missing_row_error_kind :
    burnToken st2 ⟨1, "0xA", 5⟩ = .error .insufficientBalance ∧
    Err.insufficientBalance ≠ Err.walletNotFound := by decide

/-- **C7** (amended): burning from an address with no joined balance row for
an existing burnable token fails with the insufficient-balance error (not a
distinct wallet-not-found kind), and no write occurs. -/
theorem burn_missing_row_insufficient (st : TokenState) (r : BurnTokenRequest)
    (tk : TokenRow) (h1 : r.tokenId ≠ 0) (h2 : r.fromAddress ≠ "")
    (ht : findToken st.tokens r.tokenId = some tk) (hb : tk.isBurnable = true)
    (hl : lookupBal st r.fromAddress r.tokenId = none) :
    burnToken st r = .error .insufficientBalance ∧ runOp st (.burn r) = st := by
  have h : burnToken st r = .error .insufficientBalance := by
    unfold burnToken
    rw [if_neg (by simp [h1, h2]), ht]
    dsimp only
    rw [if_neg (by simp [hb]), hl]
  exact ⟨h, by simp [runOp, h]⟩

theorem burn_missing_row_insufficient_witness :
    burnToken st2 ⟨1, "0xA", 5⟩ = .error .insufficientBalance ∧
    runOp st2 (.burn ⟨1, "0xA", 5⟩) = st2 :=
  burn_missing_row_insufficient st2 ⟨1, "0xA", 5⟩ ⟨1, true, true⟩
    (by decide) (by decide) (by decide) (by decide) (by decide)

/-- **C10**: a self-transfer (fromAddress = toAddress) whose sender balance
row holds B ≥ amount succeeds and returns the state *unchanged*: the debit
`balance - amount` and the conflicting-upsert credit `balance + amount` hit
the same row, so that row ends at B and every other row is untouched. -/
theorem self_transfer_noop (st : TokenState) (r : TransferTokenRequest)
    (b : BalanceRow) (hself : r.fromAddress = r.toAddress)
    (h1 : r.tokenId ≠ 0) (h2 : r.fromAddress ≠ "")
    (hl : lookupBal st r.fromAddress r.tokenId = some b)
    (hge : r.amount ≤ b.balance) :
    transferToken st r = .ok st := by
  rcases lookupBal_found' hl with ⟨wf, hwff, hbw, hbt, hfb⟩
  unfold transferToken
  rw [if_neg (by simp [h1, h2, ← hself]), hl]
  dsimp only
  rw [if_neg (by omega), ← hself]
  unfold getOrCreateWallet
  rw [hwff]
  dsimp only
  rw [hbw]
  unfold upsertBal
  rw [findBal_updBal_same, hfb, Option.map_some']
  dsimp only
  rw [updBal_updBal]
  have hz : -r.amount + r.amount = 0 := by omega
  rw [hz, updBal_zero]

theorem self_transfer_noop_witness :
    transferToken st1 ⟨1, "0xAAA", "0xAAA", 200⟩ = .ok st1 :=
  self_transfer_noop st1 ⟨1, "0xAAA", "0xAAA", 200⟩ ⟨1, 1, 500⟩
    (by decide) (by decide) (by decide) (by decide) (by decide)

/-- A two-wallet ledger: `0xAAA` holds 500 of token 1, `0xBBB` holds 0. -/
def st3 : TokenState :=
  ⟨[⟨1, true, true⟩], [⟨1, "0xAAA", "u1", "EOA"⟩, ⟨2, "0xBBB", "u2", "EOA"⟩],
   [⟨1, 1, 500⟩, ⟨2, 1, 0⟩], 3⟩

theorem transfer_moves_exact_amount_witness :
    bal (runOp st3 (.transfer ⟨1, "0xAAA", "0xBBB", 200⟩)) "0xAAA" 1
        = bal st3 "0xAAA" 1 - 200 ∧
    bal (runOp st3 (.transfer ⟨1, "0xAAA", "0xBBB", 200⟩)) "0xBBB" 1
        = bal st3 "0xBBB" 1 + 200 := by
  have h := transfer_moves_exact_amount st3
    (runOp st3 (.transfer ⟨1, "0xAAA", "0xBBB", 200⟩))
    ⟨1, "0xAAA", "0xBBB", 200⟩ (by decide) (by decide) (by decide)
  exact ⟨h.1, h.2.1⟩

/-- A marketplace with one NFT (tokenId 1, tokenNumber 1) owned by `0xS`
and no listings. -/
def mst0 : MarketState := ⟨[⟨1, 1, some "0xS"⟩], [], 1⟩

/-- The listing request used in the duplicate-listing scenario. -/
def rList : CreateListingRequest := ⟨1, 1, "0xS", 100, none, none⟩

/-- The marketplace after the first `createListing mst0 rList`. -/
def mst1 : MarketState :=
  ⟨[⟨1, 1, some "0xS"⟩],
   [⟨1, 1, 1, "0xS", 100, none, .active, none, none, none⟩], 2⟩

/-- **C2** as stated is false on the code: with an `active` listing for
(tokenId 1, tokenNumber 1) already present, a second identical
`createListing` does **not** fail with `DuplicateActiveListing` — it
succeeds and leaves two simultaneously `active` listings for the same
(tokenId, tokenNumber). -/
theorem duplicate_active_listing_created :
    createListing mst0 rList = .ok mst1 ∧
    activeCount mst1 1 1 = 1 ∧
    createListing mst1 rList
      = .ok ⟨[⟨1, 1, some "0xS"⟩],
             [⟨1, 1, 1, "0xS", 100, none, .active, none, none, none⟩,
              ⟨2, 1, 1, "0xS", 100, none, .active, none, none, none⟩], 3⟩ ∧
    activeCount ⟨[⟨1, 1, some "0xS"⟩],
             [⟨1, 1, 1, "0xS", 100, none, .active, none, none, none⟩,
              ⟨2, 1, 1, "0xS", 100, none, .active, none, none, none⟩], 3⟩ 1 1
      = 2 := by decide

/-- **C2** (amended): `createListing` performs no duplicate-active-listing
check: whenever the NFT exists and the seller owns it, the insert happens
unconditionally and the number of `active` listings for the NFT's
(tokenId, tokenNumber) grows by one — regardless of how many active
listings already exist, so listing exclusivity is not enforced. -/
theorem createListing_no_duplicate_check (st : MarketState)
    (req : CreateListingRequest) (nft : NftRow)
    (h1 : req.tokenId ≠ 0) (h2 : req.sellerAddress ≠ "")
    (hn : findNft st.nfts req.tokenId req.tokenNumber = some nft)
    (ho : nft.ownerAddress = some req.sellerAddress) :
    createListing st req = .ok (insertedListing st req) ∧
    activeCount (insertedListing st req) req.tokenId req.tokenNumber
      = activeCount st req.tokenId req.tokenNumber + 1 := by
  constructor
  · unfold createListing
    rw [if_neg (by simp [h1, h2]), hn]
    dsimp only
    rw [if_neg (by simp [ho])]
  · unfold insertedListing activeCount
    dsimp only
    rw [List.filter_append]
    simp

theorem createListing_no_duplicate_check_witness :
    createListing mst1 rList = .ok (insertedListing mst1 rList) ∧
    activeCount (insertedListing mst1 rList) 1 1 = activeCount mst1 1 1 + 1 :=
  createListing_no_duplicate_check mst1 rList ⟨1, 1, some "0xS"⟩
    (by decide) (by decide) (by decide) (by decide)

/-- A marketplace whose only listing (id 1) is `active` but expired at
instant 10. -/
def mstExp : MarketState :=
  ⟨[⟨1, 1, some "0xS"⟩],
   [⟨1, 1, 1, "0xS", 100, none, .active, some 10, none, none⟩], 2⟩

/-- **C5** as stated is false on the code: `buyNFT` at instant 20 on the
listing expired at instant 10 does return the "Listing has expired" error,
but performs **no** write — the listing's status afterwards is still
`active`, not `expired` (there is no lazy-expiry transition in the code). -/
theorem buy_expired_leaves_active :
    buyNFT mstExp 20 "0xhash" ⟨1, "0xB"⟩ = .error .listingExpired ∧
    (runBuy mstExp 20 "0xhash" ⟨1, "0xB"⟩).listings
      = [⟨1, 1, 1, "0xS", 100, none, .active, some 10, none, none⟩] ∧
    LStatus.active ≠ LStatus.expired := by decide

/-- **C5** (amended): `buy` on an active listing whose `expiresAt` is set
and strictly in the past fails with `ListingExpired` and leaves the stored
state — in particular the listing's `active` status — unchanged; no
transition to `expired` is written. -/
theorem buy_expired_fails_no_write (st : MarketState) (now : Int) (tx : String)
    (req : BuyNFTRequest) (l : ListingRow) (e : Int)
    (h1 : req.listingId ≠ 0) (h2 : req.buyerAddress ≠ "")
    (hfind : findActiveListing st.listings req.listingId = some l)
    (hexp : l.expiresAt = some e) (hpast : e < now) :
    buyNFT st now tx req = .error .listingExpired ∧ runBuy st now tx req = st := by
  have h : buyNFT st now tx req = .error .listingExpired := by
    unfold buyNFT
    rw [if_neg (by simp [h1, h2]), hfind]
    dsimp only
    rw [hexp]
    dsimp only
    rw [if_pos hpast]
  exact ⟨h, by simp [runBuy, h]⟩

theorem buy_expired_fails_no_write_witness :
    buyNFT mstExp 20 "0xhash" ⟨1, "0xB"⟩ = .error .listingExpired ∧
    runBuy mstExp 20 "0xhash" ⟨1, "0xB"⟩ = mstExp :=
  buy_expired_fails_no_write mstExp 20 "0xhash" ⟨1, "0xB"⟩
    ⟨1, 1, 1, "0xS", 100, none, .active, some 10, none, none⟩ 10
    (by decide) (by decide) (by decide) (by decide) (by decide)

/-- **C8**: a successful `buy` returns the generated transaction identifier
and, in one atomic state change, marks every listing row with the bought id
as `sold` with `soldAt = now` and `buyerAddress = buyer`, and rewrites the
`ownerAddress` of the NFTMetadata row(s) carrying the listing's
(tokenId, tokenNumber) to the buyer; on any failure nothing changes, so no
one-sided intermediate state is ever a result state. -/
theorem buy_success_updates_listing_and_owner (st : MarketState) (now : Int)
    (tx : String) (req : BuyNFTRequest) (st' : MarketState) (tx' : String)
    (l : ListingRow)
    (hfind : findActiveListing st.listings req.listingId = some l)
    (hok : buyNFT st now tx req = .ok (st', tx')) :
    tx' = tx ∧
    (∀ l' ∈ st'.listings, l'.id = req.listingId →
      l'.status = .sold ∧ l'.soldAt = some now ∧
      l'.buyerAddress = some req.buyerAddress) ∧
    (∀ n ∈ st'.nfts, n.tokenId = l.tokenId → n.tokenNumber = l.tokenNumber →
      n.ownerAddress = some req.buyerAddress) ∧
    (∀ (st₀ : MarketState) (now₀ : Int) (tx₀ : String) (rq : BuyNFTRequest)
      (e : Err), buyNFT st₀ now₀ tx₀ rq = .error e → runBuy st₀ now₀ tx₀ rq = st₀) := by
  suffices hsuf : st' = buyNFT.buyCommit st now req l ∧ tx' = tx by
    obtain ⟨rfl, rfl⟩ := hsuf
    refine ⟨rfl, ?_, ?_, fun st₀ now₀ tx₀ rq e hre => by simp [runBuy, hre]⟩
    · intro l' hl' hid
      unfold buyNFT.buyCommit at hl'
      dsimp only at hl'
      rcases List.mem_map.mp hl' with ⟨x, hx, rfl⟩
      by_cases hb : (x.id == req.listingId) = true
      · simp [hb]
      · rw [if_neg hb] at hid
        exact absurd (by simp [hid]) hb
    · intro n hn hn1 hn2
      unfold buyNFT.buyCommit at hn
      dsimp only at hn
      rcases List.mem_map.mp hn with ⟨x, hx, rfl⟩
      by_cases hb : (x.tokenId == l.tokenId && x.tokenNumber == l.tokenNumber) = true
      · simp [hb]
      · rw [if_neg hb] at hn1 hn2 ⊢
        exact absurd (by simp [hn1, hn2]) hb
  unfold buyNFT at hok
  split at hok
  · cases hok
  rw [hfind] at hok
  dsimp only at hok
  cases hexp : l.expiresAt with
  | some e =>
    rw [hexp] at hok
    dsimp only at hok
    split at hok
    · cases hok
    · have hp := Except.ok.inj hok
      injection hp with hst htx
      exact ⟨hst.symm, htx.symm⟩
  | none =>
    rw [hexp] at hok
    dsimp only at hok
    have hp := Except.ok.inj hok
    injection hp with hst htx
    exact ⟨hst.symm, htx.symm⟩

/-- The marketplace of spec scenario 4/5: NFT (5,1) owned by `0xSELLER`,
one active listing (id 1) for it at price 10^18. -/
def mstBuy : MarketState :=
  ⟨[⟨5, 1, some "0xSELLER"⟩],
   [⟨1, 5, 1, "0xSELLER", 1000000000000000000, none, .active, none, none, none⟩], 2⟩

/-- The state after `0xBUYER` buys listing 1 of `mstBuy` at instant 50. -/
def mstBuy' : MarketState :=
  ⟨[⟨5, 1, some "0xBUYER"⟩],
   [⟨1, 5, 1, "0xSELLER", 1000000000000000000, none, .sold, none, some 50,
     some "0xBUYER"⟩], 2⟩

theorem buy_success_updates_listing_and_owner_witness :
    (⟨1, 5, 1, "0xSELLER", 1000000000000000000, none, .sold, none, some 50,
      some "0xBUYER"⟩ : ListingRow).status = LStatus.sold ∧
    (⟨5, 1, some "0xBUYER"⟩ : NftRow).ownerAddress = some "0xBUYER" := by
  have h := buy_success_updates_listing_and_owner mstBuy 50 "0xtx" ⟨1, "0xBUYER"⟩
    mstBuy' "0xtx"
    ⟨1, 5, 1, "0xSELLER", 1000000000000000000, none, .active, none, none, none⟩
    (by decide) (by decide)
  exact ⟨(h.2.1 _ (by decide) (by decide)).1,
    h.2.2.1 _ (by decide) (by decide) (by decide)⟩

/-- **C9**: `cancelListing` succeeds exactly when some listing row matches
all of (id = listingId, seller_address = sellerAddress, status = 'active');
when no row matches — in particular when the caller is not the seller, or
the listing is in a terminal state — it fails with the not-found error
("Listing not found or you're not the seller") and changes nothing;
otherwise the matching row's status becomes `cancelled` and every other
row is untouched. -/
theorem cancel_requires_seller_and_active (st : MarketState) (lid : Nat)
    (seller : String) (h1 : lid ≠ 0) (h2 : seller ≠ "") :
    ((∀ l ∈ st.listings,
        ¬(l.id = lid ∧ l.sellerAddress = seller ∧ l.status = .active)) →
      cancelListing st lid seller = .error .listingNotFoundOrNotSeller ∧
      runCancel st lid seller = st) ∧
    ((∃ l ∈ st.listings, l.id = lid ∧ l.sellerAddress = seller ∧
        l.status = .active) →
      cancelListing st lid seller = .ok { st with
        listings := st.listings.map (fun l =>
          if l.id == lid && l.sellerAddress == seller &&
             l.status == LStatus.active
          then { l with status := .cancelled } else l) }) := by
  constructor
  · intro hnone
    have hc : cancelListing st lid seller = .error .listingNotFoundOrNotSeller := by
      unfold cancelListing
      rw [if_neg (by simp [h1, h2]), if_neg (by
        intro hany
        rcases List.any_eq_true.mp hany with ⟨x, hx, hfx⟩
        simp only [Bool.and_eq_true, beq_iff_eq] at hfx
        exact hnone x hx ⟨hfx.1.1, hfx.1.2, hfx.2⟩)]
    exact ⟨hc, by simp [runCancel, hc]⟩
  · intro hsome
    unfold cancelListing
    rw [if_neg (by simp [h1, h2]), if_pos (by
      rcases hsome with ⟨x, hx, hx1, hx2, hx3⟩
      exact List.any_eq_true.mpr ⟨x, hx, by simp [hx1, hx2, hx3]⟩)]

/-- A marketplace with a single active listing (id 1) by seller `0xS`. -/
def mstC9 : MarketState :=
  ⟨[⟨5, 1, some "0xS"⟩],
   [⟨1, 5, 1, "0xS", 100, none, .active, none, none, none⟩], 2⟩

theorem cancel_requires_seller_and_active_witness :
    cancelListing mstC9 1 "0xT" = .error .listingNotFoundOrNotSeller ∧
    runCancel mstC9 1 "0xT" = mstC9 :=
  (cancel_requires_seller_and_active mstC9 1 "0xT" (by decide) (by decide)).1
    (by decide)
